import Mathlib

/-!
Shallow embedding of the `causal` repository (operation-based causally
replicated CRDTs) and verification of the frozen claims about it.

Source files embedded here:
* `src/causal_time/mod.rs`   — vector clocks (`VectorClock`, `ClockComparison`)
* `src/causal_core/mod.rs`   — `Event`, `ReplicaState` and its `process_*`
  transitions and the `unseen` filter
* `src/causal_actix/mod.rs`  — the runtime glue (`handle_replicated`,
  `handle_command`, sync round-trips)
* `src/causal_impl/mod.rs`   — the grow-only `Counter`
* `src/causal_lseq/mod.rs`   — `LSeqPtr` (`generate_seq`, comparison, equality)
* `src/causal_rga/mod.rs`    — `RGA` (`index_with_tombstones`, `shift`,
  `prepare`, `effect`, ptr comparison)
* `src/causal_or_set/mod.rs` — `ORSet` (`query`) and its `Display` projection

Rust `HashMap`s are modelled as association lists (first-match lookup,
overwrite-on-insert); the iteration order `self.keys ++ other.keys` with
first-occurrence deduplication models `itertools`' `unique()` over
`self.replicas().chain(other.replicas())`.  Clock entries are `i32` in the
source and are modelled as `Int`; sequence numbers are `u64` modelled as
`Nat` (no claim exercises overflow of either); LSeq sequence bytes are `u8`
and their successor computation wraps, modelled by an explicit `% 256` in
`generate_seq`.  Rust `panic!`/`expect`
sites (missing pointers, out-of-bounds indices) are modelled by `Option`
with `none` for the panic.
-/

/-! ### Vector clocks — `src/causal_time/mod.rs` -/

/-- `ClockComparison` from `causal_time`. -/
inductive ClockComparison where
  | Equal
  | Less
  | Greater
  | Concurrent
deriving DecidableEq, Repr

/-- `VectorClock<T>`: a `HashMap<T, i32>` modelled as an association list. -/
structure VectorClock (RID : Type) where
  vector : List (RID × Int)
deriving DecidableEq, Repr

/-- `VectorClock::init()`. -/
def VectorClock.init {RID : Type} : VectorClock RID := ⟨[]⟩

/-- `self.vector.get(&k).or(Some(&0)).unwrap()`: lookup with default 0. -/
def getClock {RID : Type} [DecidableEq RID] (c : VectorClock RID) (k : RID) : Int :=
  match List.lookup k c.vector with
  | some v => v
  | none => 0

/-- `self.replicas()`: the key list of the clock. -/
def keysOf {RID : Type} (c : VectorClock RID) : List RID :=
  c.vector.map (fun p => p.1)

/-- First-occurrence deduplication, modelling `itertools`' `unique()` over a
key iterator (`seen` accumulates the keys already produced). -/
def uniqueAux {RID : Type} [DecidableEq RID] (seen : List RID) : List RID → List RID
  | [] => []
  | k :: ks => if k ∈ seen then uniqueAux seen ks else k :: uniqueAux (k :: seen) ks

/-- `self.replicas().chain(other.replicas()).unique()`. -/
def uniqueKeys {RID : Type} [DecidableEq RID] (l : List RID) : List RID :=
  uniqueAux [] l

/-- Overwrite-insert into an association list (`HashMap::insert`). -/
def insertObs {RID : Type} [DecidableEq RID] {B : Type} :
    List (RID × B) → RID → B → List (RID × B)
  | [], k, v => [(k, v)]
  | (k', v') :: rest, k, v =>
    if k' = k then (k, v) :: rest else (k', v') :: insertObs rest k v

/-- `VectorClock::increment`: `*self.vector.entry(id).or_insert(0) += 1`. -/
def incrementClock {RID : Type} [DecidableEq RID] (c : VectorClock RID) (k : RID) :
    VectorClock RID :=
  ⟨insertObs c.vector k (getClock c k + 1)⟩

/-- `VectorClock::merge`: for every key of the union, store the pointwise max.
(The source folds `self.vector.insert(k, max a b)` over the union of the key
sets; since the union covers every key of `self`, the resulting map is exactly
`k ↦ max (self k) (other k)` on the union, which is what is built here.) -/
def mergeClock {RID : Type} [DecidableEq RID] (a b : VectorClock RID) : VectorClock RID :=
  ⟨(uniqueKeys (keysOf a ++ keysOf b)).map (fun k => (k, max (getClock a k) (getClock b k)))⟩

/-- `VectorClock::compare`: fold the comparison state machine over the union
of the key sets. -/
def compareClock {RID : Type} [DecidableEq RID] (a b : VectorClock RID) : ClockComparison :=
  (uniqueKeys (keysOf a ++ keysOf b)).foldl
    (fun prev k =>
      let x := getClock a k
      let y := getClock b k
      match prev with
      | ClockComparison.Equal =>
          if x < y then ClockComparison.Less
          else if y < x then ClockComparison.Greater
          else ClockComparison.Equal
      | ClockComparison.Less =>
          if y < x then ClockComparison.Concurrent else ClockComparison.Less
      | ClockComparison.Greater =>
          if x < y then ClockComparison.Concurrent else ClockComparison.Greater
      | ClockComparison.Concurrent => ClockComparison.Concurrent)
    ClockComparison.Equal

/-! ### Core data model — `src/causal_core/mod.rs` -/

/-- `Event<EVENT>`. -/
structure Event (RID E : Type) where
  origin : RID
  origin_seq_nr : Nat
  local_seq_nr : Nat
  version : VectorClock RID
  data : E
deriving DecidableEq, Repr

/-- `ReplicaState<C, STATE, CMD, EVENT>` (the phantom type parameters are
dropped; the CRDT value has type `C`). -/
structure ReplicaState (RID C : Type) where
  id : RID
  seq_nr : Nat
  version : VectorClock RID
  observed : List (RID × Nat)
  crdt : C
deriving DecidableEq, Repr

/-- The `CRDT` trait: `query`, `prepare`, `effect` as explicit function
fields.  `prepare` and `effect` return `Option` because the concrete CRDTs
can panic (missing pointer / out-of-bounds index); `none` models the panic. -/
structure CrdtOps (RID C STATE CMD E : Type) where
  query : C → STATE
  prepare : C → CMD → Option E
  effect : C → Event RID E → Option C

/-- `ReplicaState::process_event` (snapshot replay). Note the source inserts
`event.origin_seq_nr` into `observed` unconditionally (no max). -/
def processEvent {RID C STATE CMD E : Type} [DecidableEq RID]
    (ops : CrdtOps RID C STATE CMD E) (S : ReplicaState RID C) (e : Event RID E) :
    Option (ReplicaState RID C) :=
  (ops.effect S.crdt e).map (fun c' =>
    { id := S.id
      seq_nr := max S.seq_nr e.local_seq_nr
      version := mergeClock S.version e.version
      observed := insertObs S.observed e.origin e.origin_seq_nr
      crdt := c' })

/-- `ReplicaState::unseen`.  The source matches on `observed.get(origin)`:
`Some(n)` with `origin_seq_nr > n` keeps the event; every other case
(including an *absent* origin) falls through to the version comparison. -/
def unseen {RID C E : Type} [DecidableEq RID]
    (S : ReplicaState RID C) (e : Event RID E) : Bool :=
  match List.lookup e.origin S.observed with
  | some n =>
    if n < e.origin_seq_nr then true
    else
      let comparison := compareClock e.version S.version
      comparison == ClockComparison.Greater || comparison == ClockComparison.Concurrent
  | none =>
    let comparison := compareClock e.version S.version
    comparison == ClockComparison.Greater || comparison == ClockComparison.Concurrent

/-- The per-event loop body of `process_replicated`, threading the fields the
source mutates (`version`, `observed`, `crdt`, `remote_seq_nr`, `new_state`)
and the rewritten events accumulated for `save_events`.  `baseSeq` is
`self.seq_nr`, which the source reads but never writes: each iteration
computes `let seq_nr = self.seq_nr + 1` from the unchanged field. -/
def replGo {RID C STATE CMD E : Type} [DecidableEq RID]
    (ops : CrdtOps RID C STATE CMD E) (sid sender : RID) (baseSeq : Nat) :
    List (Event RID E) → VectorClock RID → List (RID × Nat) → C → Nat →
    Option (ReplicaState RID C) → List (Event RID E) →
    Option (VectorClock RID × List (RID × Nat) × C ×
            Option (ReplicaState RID C) × List (Event RID E))
  | [], ver, obs, c, _remote, newState, acc => some (ver, obs, c, newState, acc)
  | e :: rest, ver, obs, c, remote, _newState, acc =>
    let seqNr := baseSeq + 1
    let ver' := mergeClock ver e.version
    let remote' := max remote e.local_seq_nr
    let obs' := insertObs obs sender remote'
    match ops.effect c e with
    | none => none
    | some c' =>
      replGo ops sid sender baseSeq rest ver' obs' c' remote'
        (some { id := sid, seq_nr := seqNr, version := ver', observed := obs', crdt := c' })
        (acc ++ [{ origin := e.origin, origin_seq_nr := e.origin_seq_nr,
                   local_seq_nr := seqNr, version := e.version, data := e.data }])

/-- `ReplicaState::process_replicated`.  Returns the mutated `self` (whose
`seq_nr` field is never written), the `Option` new state, and the list of
rewritten events passed to `save_events`. -/
def processReplicated {RID C STATE CMD E : Type} [DecidableEq RID]
    (ops : CrdtOps RID C STATE CMD E) (S : ReplicaState RID C) (sender : RID)
    (events : List (Event RID E)) :
    Option (ReplicaState RID C × Option (ReplicaState RID C) × List (Event RID E)) :=
  let remote0 := (List.lookup sender S.observed).getD 0
  let kept := events.filter (fun e => unseen S e)
  (replGo ops S.id sender S.seq_nr kept S.version S.observed S.crdt remote0 none []).map
    (fun r =>
      ({ id := S.id, seq_nr := S.seq_nr, version := r.1, observed := r.2.1, crdt := r.2.2.1 },
       r.2.2.2.1, r.2.2.2.2))

/-- `Replica::handle_replicated` (`causal_actix`): the replica keeps the new
state when `process_replicated` returns `Some`, otherwise it keeps the
(then unmutated) old one. -/
def handleReplicated {RID C STATE CMD E : Type} [DecidableEq RID]
    (ops : CrdtOps RID C STATE CMD E) (S : ReplicaState RID C) (sender : RID)
    (events : List (Event RID E)) : Option (ReplicaState RID C) :=
  (processReplicated ops S sender events).map (fun r => r.2.1.getD r.1)

/-- `ReplicaState::process_command`: bump `seq_nr` and own clock entry,
`prepare` the payload, apply the event locally, return the new state and the
event handed to `save_events`. -/
def processCommand {RID C STATE CMD E : Type} [DecidableEq RID]
    (ops : CrdtOps RID C STATE CMD E) (S : ReplicaState RID C) (cmd : CMD) :
    Option (ReplicaState RID C × Event RID E) :=
  let seqNr := S.seq_nr + 1
  let ver' := incrementClock S.version S.id
  (ops.prepare S.crdt cmd).bind (fun data =>
    let e : Event RID E :=
      { origin := S.id, origin_seq_nr := seqNr, local_seq_nr := seqNr,
        version := ver', data := data }
    (ops.effect S.crdt e).map (fun c' =>
      ({ id := S.id, seq_nr := seqNr, version := ver', observed := S.observed, crdt := c' },
       e)))

/-- `ReplicaState::process_sync`: `(self.id, observed.get(peer).unwrap_or(0) + 1,
self.version)`. -/
def processSync {RID C : Type} [DecidableEq RID]
    (S : ReplicaState RID C) (peer : RID) : RID × Nat × VectorClock RID :=
  (S.id, (List.lookup peer S.observed).getD 0 + 1, S.version)

/-- `ReplicaState::process_replay`: load events with `local_seq_nr ≥ seq_nr`,
track the max `local_seq_nr` over every *scanned* event, and ship those whose
version is `Greater` or `Concurrent` w.r.t. the requester's. -/
def processReplay {RID C E : Type} [DecidableEq RID]
    (S : ReplicaState RID C) (seqNr : Nat) (version : VectorClock RID)
    (store : List (Event RID E)) : RID × Nat × List (Event RID E) :=
  let loaded := store.filter (fun e => seqNr ≤ e.local_seq_nr)
  let lastSeqNr := loaded.foldl (fun m e => max m e.local_seq_nr) 0
  let events := loaded.filter (fun e =>
    let comparison := compareClock e.version version
    comparison == ClockComparison.Greater || comparison == ClockComparison.Concurrent)
  (S.id, lastSeqNr, events)

/-- One replica together with its in-memory event store (`InMemory.events`;
`save_events` appends, `load_events` filters by `local_seq_nr`). -/
structure Node (RID C E : Type) where
  state : ReplicaState RID C
  store : List (Event RID E)
deriving Repr

/-- `Replica::handle_command`: process the command and append the event. -/
def nodeHandleCommand {RID C STATE CMD E : Type} [DecidableEq RID]
    (ops : CrdtOps RID C STATE CMD E) (n : Node RID C E) (cmd : CMD) :
    Option (Node RID C E) :=
  (processCommand ops n.state cmd).map (fun r => ⟨r.1, n.store ++ [r.2]⟩)

/-- `Replica::handle_replicated` acting on a node: update the state and append
the rewritten events to the store. -/
def nodeHandleReplicated {RID C STATE CMD E : Type} [DecidableEq RID]
    (ops : CrdtOps RID C STATE CMD E) (n : Node RID C E) (sender : RID)
    (events : List (Event RID E)) : Option (Node RID C E) :=
  (processReplicated ops n.state sender events).map (fun r =>
    ⟨r.2.1.getD r.1, n.store ++ r.2.2⟩)

/-- One pull round-trip: the requester `process_sync`s against the provider,
the provider answers via `process_replay` over its store, and the requester
applies the reply through `handle_replicated`.  (The `last_seq_nr` of the
reply is ignored by `process_replicated`, as in the source.) -/
def syncPull {RID C STATE CMD E : Type} [DecidableEq RID]
    (ops : CrdtOps RID C STATE CMD E) (requester provider : Node RID C E) :
    Option (Node RID C E) :=
  let req := processSync requester.state provider.state.id
  let reply := processReplay provider.state req.2.1 req.2.2 provider.store
  nodeHandleReplicated ops requester reply.1 reply.2.2

/-! ### The grow-only Counter — `src/causal_impl/mod.rs` -/

/-- `Counter`: state `u64`, `prepare(Increment) = 1`, `effect` adds the
event payload.  Instantiated with `RID := Nat` (`ReplicaId = usize`). -/
def counterOps : CrdtOps Nat Nat Nat Unit Nat :=
  { query := fun c => c
    prepare := fun _ _ => some 1
    effect := fun c e => some (c + e.data) }

/-! ### LSeq pointers — `src/causal_lseq/mod.rs` -/

/-- `LSeqPtr = { sequence: Vec<u8>, replica_id: ReplicaId }`.  Bytes are
modelled as `Nat` (the source only ever stores values in `0..=255`). -/
structure LSeqPtr where
  sequence : List Nat
  replica_id : Nat
deriving DecidableEq, Repr

/-- `LSeqPtr::generate_seq`.  The inner `generate(mid, low, high, i)` always
has `mid.len() = i` and appends one byte per step, so the accumulator is
rendered as the result's head: at each level `min = low[i]` (0 past the end),
`max = high[i]` (255 past the end); if `min + 1 < max` emit `min + 1` and
stop, else emit `min` and recurse on the tails.  The source computes
`min + 1` on `u8`, which wraps modulo 256 at `min = 255` (release-build
semantics; a debug build would abort there), so the successor is modelled
as `(min + 1) % 256`. -/
def generate_seq : List Nat → List Nat → List Nat
  | [], [] => [(0 + 1) % 256]
  | [], b :: hs =>
    if (0 + 1) % 256 < b then [(0 + 1) % 256] else 0 :: generate_seq [] hs
  | a :: ls, [] =>
    if (a + 1) % 256 < 255 then [(a + 1) % 256] else a :: generate_seq ls []
  | a :: ls, b :: hs =>
    if (a + 1) % 256 < b then [(a + 1) % 256] else a :: generate_seq ls hs
termination_by low high => low.length + high.length

/-- The byte-sequence part of `LSeqPtr::partial_cmp`: compare elementwise
over the common length, then compare lengths (`eq` means the lists are
identical). -/
def seqCmp : List Nat → List Nat → Ordering
  | [], [] => Ordering.eq
  | [], _ :: _ => Ordering.lt
  | _ :: _, [] => Ordering.gt
  | a :: as, b :: bs =>
    if a < b then Ordering.lt else if b < a then Ordering.gt else seqCmp as bs

/-- `LSeqPtr::partial_cmp`: sequence comparison first; on identical
sequences the owner tiebreak returns `Less` when `self.replica_id <
other.replica_id` and `Greater` otherwise — it never returns `Some(Equal)`
or `None`. -/
def lseqPtrCmp (a b : LSeqPtr) : Option Ordering :=
  match seqCmp a.sequence b.sequence with
  | Ordering.lt => some Ordering.lt
  | Ordering.gt => some Ordering.gt
  | Ordering.eq =>
    if a.replica_id < b.replica_id then some Ordering.lt else some Ordering.gt

/-- `LSeqPtr::eq`: count the positionwise-equal pairs of the zipped
sequences; equal iff that count is both lengths and the owners agree. -/
def lseqPtrEq (a b : LSeqPtr) : Bool :=
  let matching := ((a.sequence.zip b.sequence).filter (fun p => p.1 == p.2)).length
  matching == a.sequence.length && matching == b.sequence.length &&
    a.replica_id == b.replica_id

/-! ### RGA — `src/causal_rga/mod.rs` -/

/-- `RGAPtr = { seq_nr: SeqNr, replica_id: ReplicaId }`.  This iteration of
the source uses a signed replica id (the sentinel is `RGAPtr::new(-1)`), so
`replica_id : Int`. -/
structure RGAPtr where
  seq_nr : Nat
  replica_id : Int
deriving DecidableEq, Repr

/-- `RGAPtr::partial_cmp`: lexicographic on `(seq_nr, replica_id)`, `None`
on equality. -/
def rgaPtrCmp (a b : RGAPtr) : Option Ordering :=
  if a.seq_nr < b.seq_nr then some Ordering.lt
  else if b.seq_nr < a.seq_nr then some Ordering.gt
  else if a.replica_id < b.replica_id then some Ordering.lt
  else if b.replica_id < a.replica_id then some Ordering.gt
  else none

/-- Rust `<` on a `PartialOrd`: `partial_cmp == Some(Less)`. -/
def rgaPtrLt (a b : RGAPtr) : Bool :=
  rgaPtrCmp a b == some Ordering.lt

/-- `RGACommand<T>`. -/
inductive RGACmd (T : Type) where
  | Insert : Nat → T → RGACmd T
  | Remove : Nat → RGACmd T
deriving DecidableEq, Repr

/-- `RGAOperation<T>`. -/
inductive RGAOp (T : Type) where
  | Inserted : RGAPtr → RGAPtr → T → RGAOp T
  | Removed : RGAPtr → RGAOp T
deriving DecidableEq, Repr

/-- `RGA<T> = { sequencer: RGAPtr, elements: Vec<(RGAPtr, Option<T>)> }`. -/
structure RGACrdt (T : Type) where
  sequencer : RGAPtr
  elements : List (RGAPtr × Option T)
deriving DecidableEq, Repr

/-- The `while offset < len && remaining > 0` loop of
`RGA::index_with_tombstones`, iterating over the suffix of `elements` that
starts at `offset` (a visible element decrements `remaining`). -/
def idxLoop {T : Type} : List (RGAPtr × Option T) → Nat → Nat → Nat
  | [], offset, _ => offset
  | e :: rest, offset, remaining =>
    if remaining = 0 then offset
    else
      match e.2 with
      | some _ => idxLoop rest (offset + 1) (remaining - 1)
      | none => idxLoop rest (offset + 1) remaining

/-- `RGA::index_with_tombstones`: start at offset 1 (past the sentinel). -/
def index_with_tombstones {T : Type} (elements : List (RGAPtr × Option T))
    (index : Nat) : Nat :=
  idxLoop (elements.drop 1) 1 index

/-- The `while offset < len && *v_ptr < elements[offset].0` loop of
`RGA::shift`, over the suffix starting at `offset`. -/
def shiftLoop {T : Type} : List (RGAPtr × Option T) → Nat → RGAPtr → Nat
  | [], offset, _ => offset
  | e :: rest, offset, p =>
    if rgaPtrLt p e.1 then shiftLoop rest (offset + 1) p else offset

/-- `RGA::shift`. -/
def rgaShift {T : Type} (elements : List (RGAPtr × Option T)) (offset : Nat)
    (p : RGAPtr) : Nat :=
  shiftLoop (elements.drop offset) offset p

/-- `Vec::insert(index, x)`. -/
def insertAt {A : Type} : Nat → A → List A → List A
  | _, x, [] => [x]
  | 0, x, l => x :: l
  | n + 1, x, y :: l => y :: insertAt n x l

/-- `RGA::default(replica_id)`: sequencer `(0, id)` and the sentinel
`(0, -1, None)` as the only element. -/
def rgaDefault (T : Type) (replica_id : Int) : RGACrdt T :=
  ⟨⟨0, replica_id⟩, [(⟨0, -1⟩, none)]⟩

/-- `RGA::query`: drop tombstones, unwrap the values (the source filters
`is_some` and then maps `unwrap`; `filterMap` computes the same list). -/
def rgaQuery {T : Type} (c : RGACrdt T) : List T :=
  c.elements.filterMap (fun p => p.2)

/-- `RGA::prepare` (`expect`-panics on out-of-bounds indexing become
`none`).  `Insert`: predecessor is `elements[index_with_tombstones i - 1]`,
the new ptr is `sequencer.next_seq_nr()`.  `Remove`: the target is
`elements[index_with_tombstones i]` itself. -/
def rgaPrepare {T : Type} (c : RGACrdt T) : RGACmd T → Option (RGAOp T)
  | RGACmd.Insert i v =>
    (c.elements.get? (index_with_tombstones c.elements i - 1)).map (fun prev =>
      RGAOp.Inserted prev.1 ⟨c.sequencer.seq_nr + 1, c.sequencer.replica_id⟩ v)
  | RGACmd.Remove i =>
    (c.elements.get? (index_with_tombstones c.elements i)).map (fun tgt =>
      RGAOp.Removed tgt.1)

/-- `RGA::effect`.  `Inserted(prev, at, v)`: locate `prev` by ptr equality
(`none` models the `expect` panic), shift from the successor position, bump
the sequencer to `max(seq_nr, at.seq_nr)`, and insert `(at, Some v)`.
`Removed(at)`: locate `at` and overwrite the value with `None` (the found
element's ptr equals `at`, so the stored pair is `(at, None)`). -/
def rgaEffect {T : Type} [DecidableEq T] (c : RGACrdt T) (e : Event Int (RGAOp T)) :
    Option (RGACrdt T) :=
  match e.data with
  | RGAOp.Inserted prev at_ v =>
    (c.elements.findIdx? (fun p => p.1 == prev)).map (fun pi =>
      let insertIndex := rgaShift c.elements (pi + 1) at_
      { sequencer := ⟨max c.sequencer.seq_nr at_.seq_nr, c.sequencer.replica_id⟩
        elements := insertAt insertIndex (at_, some v) c.elements })
  | RGAOp.Removed at_ =>
    (c.elements.findIdx? (fun p => p.1 == at_)).map (fun i =>
      { sequencer := c.sequencer, elements := c.elements.set i (at_, none) })

/-- The RGA instantiated as a `CrdtOps` over `Char` values (`RID := Int`). -/
def rgaOpsC : CrdtOps Int (RGACrdt Char) (List Char) (RGACmd Char) (RGAOp Char) :=
  { query := rgaQuery
    prepare := rgaPrepare
    effect := rgaEffect }

/-- The non-tombstone entries of `elements[1..]` (the sentinel dropped), in
physical order: the i-th entry of this list is the i-th visible element. -/
def rgaVisibles {T : Type} (elements : List (RGAPtr × Option T)) :
    List (RGAPtr × Option T) :=
  (elements.drop 1).filter (fun p => p.2.isSome)

/-! ### OR-Set — `src/causal_or_set/mod.rs` -/

/-- `ORSet<T>`: a `BinarySet` of `(value, version)` pairs, modelled as a
list. -/
structure ORSet (T RID : Type) where
  elements : List (T × VectorClock RID)
deriving DecidableEq, Repr

/-- `ORSet::query`: `BinarySet(self.elements.0.iter().cloned().collect())` —
a copy of the stored pairs, versions included. -/
def orsetQuery {T RID : Type} (s : ORSet T RID) : List (T × VectorClock RID) :=
  s.elements

/-- The `Display` rendering of a `BinarySet` prints `value.0` for each pair:
the value projection happens here, not in `query`. -/
def binarySetShown {T RID : Type} (l : List (T × VectorClock RID)) : List T :=
  l.map (fun p => p.1)

/-- The number of entries the `index_with_tombstones` loop walks past:
it consumes one entry per iteration and stops once `remaining` visible
entries have been consumed (or the list ends). -/
def scanLen {T : Type} : List (RGAPtr × Option T) → Nat → Nat
  | [], _ => 0
  | e :: rest, remaining =>
    if remaining = 0 then 0
    else
      match e.2 with
      | some _ => 1 + scanLen rest (remaining - 1)
      | none => 1 + scanLen rest remaining

/-! ### Scenario S4 (claim C7): two RGA replicas, concurrent inserts -/

/-- A fresh RGA replica node with id `r` (`ReplicaState::create` plus an
empty in-memory store). -/
def rgaNode (r : Int) : Node Int (RGACrdt Char) (RGAOp Char) :=
  ⟨⟨r, 0, VectorClock.init, [], rgaDefault Char r⟩, []⟩

/-- Scenario S4: `@0 Insert(0, 'X')`; replica 1 pulls from 0; concurrently
`@0 Insert(1, 'Y')` and `@1 Insert(1, 'Z')`; then a sync both ways (0 pulls
from 1, then 1 pulls from 0).  Returns both replicas' `query()` results. -/
def scenarioS4 : Option (List Char × List Char) := do
  let n0 ← nodeHandleCommand rgaOpsC (rgaNode 0) (RGACmd.Insert 0 'X')
  let n1 ← syncPull rgaOpsC (rgaNode 1) n0
  let n0 ← nodeHandleCommand rgaOpsC n0 (RGACmd.Insert 1 'Y')
  let n1 ← nodeHandleCommand rgaOpsC n1 (RGACmd.Insert 1 'Z')
  let n0 ← syncPull rgaOpsC n0 n1
  let n1 ← syncPull rgaOpsC n1 n0
  pure (rgaQuery n0.state.crdt, rgaQuery n1.state.crdt)

/-! ### Concrete instances used by the claim theorems -/

/-- A counter replica that has applied nothing yet (id 0). -/
def cState0 : ReplicaState Nat Nat :=
  { id := 0, seq_nr := 0, version := ⟨[]⟩, observed := [], crdt := 0 }

/-- Two consecutive counter events originated at replica 1. -/
def cEvA : Event Nat Nat := { origin := 1, origin_seq_nr := 1, local_seq_nr := 1, version := ⟨[(1, 1)]⟩, data := 1 }

/-- Second event of the batch delivered to `cState0`. -/
def cEvB : Event Nat Nat := { origin := 1, origin_seq_nr := 2, local_seq_nr := 2, version := ⟨[(1, 2)]⟩, data := 1 }

/-- A counter replica (id 0) that observed event 1 of replica 2 directly:
`seq_nr = 1`, clock `{2 ↦ 1}`, `observed = {2 ↦ 1}`, counter value 1. -/
def cStateR : ReplicaState Nat Nat :=
  { id := 0, seq_nr := 1, version := ⟨[(2, 1)]⟩, observed := [(2, 1)], crdt := 1 }

/-- Replica 2's second event as relayed by replica 1 (sender 1, origin 2,
the relay's own `local_seq_nr` 7). -/
def cEvRelay : Event Nat Nat := { origin := 2, origin_seq_nr := 2, local_seq_nr := 7, version := ⟨[(2, 2)]⟩, data := 1 }

/-- A counter replica whose clock and observed map dominate `cEvStale`. -/
def cStateSeen : ReplicaState Nat Nat :=
  { id := 0, seq_nr := 5, version := ⟨[(1, 5)]⟩, observed := [(1, 5)], crdt := 5 }

/-- An already-seen event from replica 1 (`origin_seq_nr` 3 ≤ observed 5,
version dominated). -/
def cEvStale : Event Nat Nat := { origin := 1, origin_seq_nr := 3, local_seq_nr := 3, version := ⟨[(1, 3)]⟩, data := 1 }

/-- The unseen filter as the claim C3 words it: `observed.get(origin, 0) <
origin_seq_nr`, with default 0 for an absent origin, disjoined with the
version test.  (Claim-side definition, for comparison with `unseen`.) -/
def unseenSpecC3 {RID C E : Type} [DecidableEq RID]
    (S : ReplicaState RID C) (e : Event RID E) : Bool :=
  ((List.lookup e.origin S.observed).getD 0 < e.origin_seq_nr) ||
    (compareClock e.version S.version == ClockComparison.Greater ||
     compareClock e.version S.version == ClockComparison.Concurrent)

/-- A replica whose clock is ahead but whose observed map is empty. -/
def cStateC3 : ReplicaState Nat Nat :=
  { id := 0, seq_nr := 1, version := ⟨[(0, 1)]⟩, observed := [], crdt := 1 }

/-- An event from an origin absent from `cStateC3.observed` whose version is
dominated by `cStateC3.version`. -/
def cEvC3 : Event Nat Nat := { origin := 1, origin_seq_nr := 1, local_seq_nr := 1, version := ⟨[]⟩, data := 1 }

/-- A replica that already observed seq nr 5 from replica 1. -/
def cStateC4 : ReplicaState Nat Nat :=
  { id := 0, seq_nr := 3, version := ⟨[(1, 5)]⟩, observed := [(1, 5)], crdt := 5 }

/-- A replayed event from replica 1 with the *smaller* `origin_seq_nr` 3. -/
def cEvC4 : Event Nat Nat := { origin := 1, origin_seq_nr := 3, local_seq_nr := 5, version := ⟨[(1, 3)]⟩, data := 1 }

/-- An RGA over `Nat` values whose first physical entry after the sentinel
is a tombstone followed by one visible element. -/
def rgaC6 : RGACrdt Nat :=
  ⟨⟨2, 0⟩, [(⟨0, -1⟩, none), (⟨1, 0⟩, none), (⟨2, 0⟩, some 88)]⟩

/-- An RGA over `Nat` values with two visible elements and no tombstones. -/
def rgaC6w : RGACrdt Nat :=
  ⟨⟨2, 0⟩, [(⟨0, -1⟩, none), (⟨1, 0⟩, some 10), (⟨2, 0⟩, some 20)]⟩

/-- An OR-Set holding value 7 tagged with version `{0 ↦ 1}`. -/
def orsetA : ORSet Nat Nat := ⟨[(7, ⟨[(0, 1)]⟩)]⟩

/-- An OR-Set holding value 7 tagged with the different version `{0 ↦ 2}`. -/
def orsetB : ORSet Nat Nat := ⟨[(7, ⟨[(0, 2)]⟩)]⟩

/-- The state after delivering `[cEvRelay]` (sender 1) to `cStateR` once. -/
def cStateR1 : ReplicaState Nat Nat :=
  { id := 0, seq_nr := 2, version := ⟨[(2, 2)]⟩, observed := [(2, 1), (1, 7)], crdt := 2 }

/-- The state after delivering the same message to `cStateR1` again: the
relayed event passes `unseen` a second time and is re-applied. -/
def cStateR2 : ReplicaState Nat Nat :=
  { id := 0, seq_nr := 3, version := ⟨[(2, 2)]⟩, observed := [(2, 1), (1, 7)], crdt := 3 }

/-! ## Theorems -/

/-! ### Association-list and clock lemmas -/

theorem mem_uniqueAux {RID : Type} [DecidableEq RID] (a : RID) :
    ∀ (l seen : List RID), a ∈ uniqueAux seen l ↔ a ∈ l ∧ a ∉ seen := by
  intro l
  induction l with
  | nil => intro seen; simp [uniqueAux]
  | cons k ks ih =>
    intro seen
    by_cases hk : k ∈ seen
    · rw [uniqueAux, if_pos hk, ih seen]
      simp only [List.mem_cons]
      constructor
      · rintro ⟨h1, h2⟩
        exact ⟨Or.inr h1, h2⟩
      · rintro ⟨h1 | h1, h2⟩
        · exact absurd (h1 ▸ hk) h2
        · exact ⟨h1, h2⟩
    · rw [uniqueAux, if_neg hk]
      simp only [List.mem_cons, ih (k :: seen)]
      constructor
      · rintro (rfl | ⟨h1, h2⟩)
        · exact ⟨Or.inl rfl, hk⟩
        · exact ⟨Or.inr h1, fun hc => h2 (Or.inr hc)⟩
      · rintro ⟨rfl | h1, h2⟩
        · exact Or.inl rfl
        · by_cases hak : a = k
          · exact Or.inl hak
          · refine Or.inr ⟨h1, ?_⟩
            rintro (h | h)
            · exact hak h
            · exact h2 h

theorem mem_uniqueKeys {RID : Type} [DecidableEq RID] (a : RID) (l : List RID) :
    a ∈ uniqueKeys l ↔ a ∈ l := by
  simp [uniqueKeys, mem_uniqueAux]

theorem lookup_map_pair {RID B : Type} [DecidableEq RID] (f : RID → B) (k : RID) :
    ∀ l : List RID, List.lookup k (l.map (fun j => (j, f j))) =
      if k ∈ l then some (f k) else none := by
  intro l
  induction l with
  | nil => simp
  | cons j js ih =>
    by_cases hj : k = j
    · subst hj
      simp [List.lookup]
    · have hb : (k == j) = false := beq_eq_false_iff_ne.mpr hj
      simp only [List.map_cons, List.lookup, hb, List.mem_cons]
      by_cases h : k ∈ js
      · simp only [ih, if_pos h]
        rw [if_pos (Or.inr h)]
      · simp only [ih, if_neg h]
        rw [if_neg (by rintro (hc | hc); exacts [hj hc, h hc])]

theorem lookup_eq_none_of_not_mem {RID B : Type} [DecidableEq RID] (k : RID) :
    ∀ l : List (RID × B), k ∉ l.map (fun p => p.1) → List.lookup k l = none := by
  intro l
  induction l with
  | nil => simp
  | cons p ps ih =>
    intro h
    simp only [List.map_cons, List.mem_cons] at h
    push_neg at h
    have hb : (k == p.1) = false := beq_eq_false_iff_ne.mpr h.1
    simp only [List.lookup, hb]
    exact ih h.2

theorem getClock_eq_lookup {RID : Type} [DecidableEq RID] (c : VectorClock RID) (k : RID) :
    getClock c k = (List.lookup k c.vector).getD 0 := by
  unfold getClock
  cases List.lookup k c.vector <;> rfl

theorem getClock_absent {RID : Type} [DecidableEq RID] (c : VectorClock RID) (k : RID)
    (h : k ∉ keysOf c) : getClock c k = 0 := by
  rw [getClock_eq_lookup, lookup_eq_none_of_not_mem k c.vector h]
  rfl

theorem getClock_merge {RID : Type} [DecidableEq RID] (a b : VectorClock RID) (k : RID) :
    getClock (mergeClock a b) k = max (getClock a k) (getClock b k) := by
  have key : List.lookup k (mergeClock a b).vector =
      if k ∈ uniqueKeys (keysOf a ++ keysOf b)
      then some (max (getClock a k) (getClock b k)) else none :=
    lookup_map_pair (fun j => max (getClock a j) (getClock b j)) k _
  by_cases h : k ∈ uniqueKeys (keysOf a ++ keysOf b)
  · rw [getClock_eq_lookup, key, if_pos h]
    rfl
  · have hm := h
    rw [mem_uniqueKeys, List.mem_append] at hm
    push_neg at hm
    rw [getClock_eq_lookup, key, if_neg h, getClock_absent a k hm.1, getClock_absent b k hm.2]
    rfl

theorem lookup_insertObs_self {RID B : Type} [DecidableEq RID] (k : RID) (v : B) :
    ∀ l : List (RID × B), List.lookup k (insertObs l k v) = some v := by
  intro l
  induction l with
  | nil => simp [insertObs, List.lookup]
  | cons p ps ih =>
    obtain ⟨k', v'⟩ := p
    by_cases h : k' = k
    · subst h
      simp [insertObs, List.lookup]
    · have hb : (k == k') = false := beq_eq_false_iff_ne.mpr (fun hc => h hc.symm)
      simp only [insertObs, if_neg h, List.lookup, hb]
      exact ih

theorem lookup_insertObs_other {RID B : Type} [DecidableEq RID] (k k' : RID) (v : B)
    (hne : k' ≠ k) :
    ∀ l : List (RID × B), List.lookup k' (insertObs l k v) = List.lookup k' l := by
  intro l
  induction l with
  | nil =>
    have hb : (k' == k) = false := beq_eq_false_iff_ne.mpr hne
    simp [insertObs, List.lookup, hb]
  | cons p ps ih =>
    obtain ⟨k0, v0⟩ := p
    by_cases h : k0 = k
    · subst h
      have hb : (k' == k0) = false := beq_eq_false_iff_ne.mpr hne
      simp [insertObs, List.lookup, hb]
    · simp only [insertObs, if_neg h, List.lookup]
      by_cases h' : k' = k0
      · have hb : (k' == k0) = true := beq_iff_eq.mpr h'
        simp [hb]
      · have hb : (k' == k0) = false := beq_eq_false_iff_ne.mpr h'
        simp only [hb]
        exact ih

/-! ### LSeq comparison lemmas -/

theorem seqCmp_eq_iff : ∀ a b : List Nat, seqCmp a b = Ordering.eq ↔ a = b := by
  intro a
  induction a with
  | nil => intro b; cases b <;> simp [seqCmp]
  | cons x xs ih =>
    intro b
    cases b with
    | nil => simp [seqCmp]
    | cons y ys =>
      by_cases h1 : x < y
      · rw [seqCmp, if_pos h1]
        simp only [List.cons.injEq]
        constructor
        · intro hc; cases hc
        · rintro ⟨rfl, -⟩; exact absurd h1 (lt_irrefl x)
      · by_cases h2 : y < x
        · rw [seqCmp, if_neg h1, if_pos h2]
          simp only [List.cons.injEq]
          constructor
          · intro hc; cases hc
          · rintro ⟨rfl, -⟩; exact absurd h2 (lt_irrefl x)
        · have hxy : x = y := le_antisymm (not_lt.mp h2) (not_lt.mp h1)
          subst hxy
          rw [seqCmp, if_neg h1, if_neg h2]
          simp only [List.cons.injEq, true_and]
          exact ih ys

theorem zip_self_filter_length :
    ∀ s : List Nat, ((s.zip s).filter (fun p => p.1 == p.2)).length = s.length := by
  intro s
  induction s with
  | nil => rfl
  | cons x xs ih =>
    rw [List.zip_cons_cons, List.filter_cons]
    have hb : ((x, x).1 == (x, x).2) = true := beq_self_eq_true x
    rw [hb]
    simp only [if_true, List.length_cons, ih]

/-- C10: comparing an `LSeqPtr` with an identical ptr (equal byte sequence,
equal owner) via `partial_cmp` yields `Some(Greater)`, never `Some(Equal)`
— the order is not reflexive-equal — while `eq` on the same pair returns
`true`. -/
theorem c10_cmp_identical_is_greater (p q : LSeqPtr)
    (hs : p.sequence = q.sequence) (hr : p.replica_id = q.replica_id) :
    lseqPtrCmp p q = some Ordering.gt ∧ lseqPtrEq p q = true := by
  obtain ⟨s, r⟩ := p
  obtain ⟨s', r'⟩ := q
  simp only at hs hr
  subst hs; subst hr
  constructor
  · rw [lseqPtrCmp]
    have he : seqCmp s s = Ordering.eq := (seqCmp_eq_iff s s).mpr rfl
    rw [he]
    simp [lt_irrefl]
  · simp [lseqPtrEq, zip_self_filter_length]

/-- Witness for C10 at a concrete ptr. -/
theorem c10_witness :
    lseqPtrCmp ⟨[1, 2], 3⟩ ⟨[1, 2], 3⟩ = some Ordering.gt ∧
      lseqPtrEq ⟨[1, 2], 3⟩ ⟨[1, 2], 3⟩ = true :=
  c10_cmp_identical_is_greater ⟨[1, 2], 3⟩ ⟨[1, 2], 3⟩ rfl rfl

/-! ### C3: the `unseen` filter -/

/-- C3 (amended): `unseen` keeps `e` iff either `e.origin` is *present* in
the observed map with a recorded value strictly below `e.origin_seq_nr`, or
the version comparison yields `Greater` or `Concurrent`.  (When the origin
is absent, only the version test applies — there is no implicit default 0.) -/
theorem c3_unseen_characterization {RID C E : Type} [DecidableEq RID]
    (S : ReplicaState RID C) (e : Event RID E) :
    unseen S e = true ↔
      ((∃ n, List.lookup e.origin S.observed = some n ∧ n < e.origin_seq_nr) ∨
        compareClock e.version S.version = ClockComparison.Greater ∨
        compareClock e.version S.version = ClockComparison.Concurrent) := by
  unfold unseen
  cases hl : List.lookup e.origin S.observed with
  | none => simp [hl]
  | some n =>
    by_cases hlt : n < e.origin_seq_nr
    · simp only [if_pos hlt]
      constructor
      · intro _; exact Or.inl ⟨n, rfl, hlt⟩
      · intro _; trivial
    · simp only [if_neg hlt, Bool.or_eq_true, beq_iff_eq]
      constructor
      · intro h; exact Or.inr h
      · rintro (⟨m, hm, hmlt⟩ | h)
        · cases hm; exact absurd hmlt hlt
        · exact h

/-- C3 counterexample: at `cStateC3` / `cEvC3` the claim's filter (absent
origin defaults to 0, so `0 < origin_seq_nr` keeps the event) keeps the
event, but the source's `unseen` rejects it (the version is dominated). -/
theorem c3_counterexample :
    unseenSpecC3 cStateC3 cEvC3 = true ∧ unseen cStateC3 cEvC3 = false := by
  decide

/-! ### C4: `process_event` -/

/-- C4 (amended): `process_event` merges `e.version` into the clock
(pointwise max), sets `observed[e.origin]` *unconditionally* to
`e.origin_seq_nr` (no max — the entry can decrease), leaves the other
observed entries alone, applies `effect`, and sets `seq_nr` to
`max(seq_nr, local_seq_nr)`. -/
theorem c4_process_event_fields {RID C STATE CMD E : Type} [DecidableEq RID]
    (ops : CrdtOps RID C STATE CMD E) (S : ReplicaState RID C) (e : Event RID E)
    (c' : C) (heff : ops.effect S.crdt e = some c') :
    ∃ S2, processEvent ops S e = some S2 ∧
      S2.id = S.id ∧
      S2.seq_nr = max S.seq_nr e.local_seq_nr ∧
      S2.crdt = c' ∧
      (∀ k, getClock S2.version k = max (getClock S.version k) (getClock e.version k)) ∧
      List.lookup e.origin S2.observed = some e.origin_seq_nr ∧
      (∀ k, k ≠ e.origin → List.lookup k S2.observed = List.lookup k S.observed) := by
  refine ⟨{ id := S.id, seq_nr := max S.seq_nr e.local_seq_nr,
            version := mergeClock S.version e.version,
            observed := insertObs S.observed e.origin e.origin_seq_nr,
            crdt := c' }, ?_, rfl, rfl, rfl, ?_, ?_, ?_⟩
  · rw [processEvent, heff]
    rfl
  · intro k
    exact getClock_merge S.version e.version k
  · exact lookup_insertObs_self e.origin e.origin_seq_nr S.observed
  · intro k hk
    exact lookup_insertObs_other e.origin k e.origin_seq_nr hk S.observed

/-- Witness for C4 at the concrete counter replica `cStateC4`. -/
theorem c4_witness :
    ∃ S2, processEvent counterOps cStateC4 cEvC4 = some S2 ∧
      S2.id = cStateC4.id ∧
      S2.seq_nr = max cStateC4.seq_nr cEvC4.local_seq_nr ∧
      S2.crdt = 6 ∧
      (∀ k, getClock S2.version k =
        max (getClock cStateC4.version k) (getClock cEvC4.version k)) ∧
      List.lookup cEvC4.origin S2.observed = some cEvC4.origin_seq_nr ∧
      (∀ k, k ≠ cEvC4.origin →
        List.lookup k S2.observed = List.lookup k cStateC4.observed) :=
  c4_process_event_fields counterOps cStateC4 cEvC4 6 rfl

/-- C4 counterexample: `cStateC4` has `observed[1] = 5`; processing `cEvC4`
(origin 1, `origin_seq_nr` 3) *decreases* the entry to 3 instead of keeping
`max 5 3 = 5` as the claim states. -/
theorem c4_counterexample :
    (processEvent counterOps cStateC4 cEvC4).map (fun s => List.lookup 1 s.observed) =
      some (some 3) ∧
    List.lookup 1 cStateC4.observed = some 5 ∧ (3 : Nat) < 5 := by
  decide

/-! ### C9: a fully filtered batch leaves the replica unchanged -/

/-- C9: if no event of the batch passes `unseen`, `process_replicated`
returns `None`, hands `save_events` the empty list, and leaves every field
of the replica state unchanged. -/
theorem c9_all_filtered_no_change {RID C STATE CMD E : Type} [DecidableEq RID]
    (ops : CrdtOps RID C STATE CMD E) (S : ReplicaState RID C) (sender : RID)
    (events : List (Event RID E)) (h : ∀ e ∈ events, unseen S e = false) :
    processReplicated ops S sender events = some (S, none, []) := by
  have hf : events.filter (fun e => unseen S e) = [] := by
    refine List.filter_eq_nil_iff.mpr ?_
    intro e he
    simp [h e he]
  unfold processReplicated
  rw [hf]
  rfl

/-- Witness for C9: the stale event `cEvStale` is rejected by `cStateSeen`'s
filter and the delivery is a complete no-op. -/
theorem c9_witness :
    processReplicated counterOps cStateSeen 1 [cEvStale] = some (cStateSeen, none, []) :=
  c9_all_filtered_no_change counterOps cStateSeen 1 [cEvStale] (by decide)

/-! ### C1: `process_replicated` does not advance `seq_nr` per kept event -/

/-- C1 evaluated at a failing input: both events of the batch pass the
filter (k = 2), yet the resulting state's `seq_nr` is `old + 1 = 1` (not
`old + 2`) and *both* stored events carry `local_seq_nr = 1` — the loop
computes `self.seq_nr + 1` each iteration but never writes `self.seq_nr`
back, so the appended run is `[1, 1]`, not the contiguous `[1, 2]`. -/
theorem c1_seq_nr_frozen_eval :
    ([cEvA, cEvB].filter (fun e => unseen cState0 e)).length = 2 ∧
    (processReplicated counterOps cState0 1 [cEvA, cEvB]).map
      (fun r => (r.2.1.map (fun s => s.seq_nr), r.2.2.map (fun e => e.local_seq_nr))) =
      some (some 1, [1, 1]) := by
  decide

/-! ### C2: duplicate delivery is not idempotent -/

/-- C2 evaluated at a failing input: delivering the same `Replicated`
message (sender 1, the relayed event `cEvRelay` of origin 2) to `cStateR`
twice re-applies the event: the filter keys its test on `event.origin` (2)
but the first delivery only updated `observed[sender] = observed[1]`, so
`observed[2]` still reads 1 < 2 and the event passes `unseen` again.  The
counter reaches 3 instead of 2. -/
theorem c2_duplicate_delivery_eval :
    handleReplicated counterOps cStateR 1 [cEvRelay] = some cStateR1 ∧
    handleReplicated counterOps cStateR1 1 [cEvRelay] = some cStateR2 ∧
    cStateR2 ≠ cStateR1 := by
  decide

/-! ### C7: scenario S4 -/

/-- C7: in scenario S4 both replicas converge to the visible sequence
`X Z Y` — the two concurrent inserts after `X` are placed in descending
`(seq_nr, replica_id)` order of their `at`-ptrs, so `Z` (ptr `(2, 1)`)
precedes `Y` (ptr `(2, 0)`). -/
theorem c7_scenario_s4 :
    scenarioS4 = some (['X', 'Z', 'Y'], ['X', 'Z', 'Y']) := by
  rfl

/-! ### C8: `ORSet::query` does not project to values -/

/-- C8 (amended): `query` returns the stored `(value, version)` pairs
unchanged; the projection to bare values happens only in the `Display`
rendering of the returned set. -/
theorem c8_query_is_identity {T RID : Type} (s : ORSet T RID) :
    orsetQuery s = s.elements ∧
      binarySetShown (orsetQuery s) = s.elements.map (fun p => p.1) :=
  ⟨rfl, rfl⟩

/-- C8 counterexample: two OR-Sets with the same values but different
versions are distinguished by `query` — its result still carries the
version components, so it is not the claimed projection to values. -/
theorem c8_counterexample :
    binarySetShown orsetA.elements = binarySetShown orsetB.elements ∧
      orsetQuery orsetA ≠ orsetQuery orsetB := by
  decide

/-! ### C6: `index_with_tombstones` and `prepare(Remove)` -/

theorem idxLoop_eq_scanLen {T : Type} :
    ∀ (xs : List (RGAPtr × Option T)) (offset rem : Nat),
      idxLoop xs offset rem = offset + scanLen xs rem := by
  intro xs
  induction xs with
  | nil => intro offset rem; simp [idxLoop, scanLen]
  | cons e rest ih =>
    intro offset rem
    obtain ⟨q, val⟩ := e
    by_cases h0 : rem = 0
    · simp [idxLoop, scanLen, h0]
    · cases val with
      | some w =>
        simp only [idxLoop, scanLen, if_neg h0]
        rw [ih]
        omega
      | none =>
        simp only [idxLoop, scanLen, if_neg h0]
        rw [ih]
        omega

theorem scanLen_nth {T : Type} :
    ∀ (xs : List (RGAPtr × Option T)) (i : Nat) (p : RGAPtr) (v : T),
      i < (xs.filter (fun q => q.2.isSome)).length →
      xs.get? (scanLen xs i) = some (p, some v) →
      (xs.filter (fun q => q.2.isSome)).get? i = some (p, some v) := by
  intro xs
  induction xs with
  | nil =>
    intro i p v h
    simp at h
  | cons e rest ih =>
    intro i p v hlen hget
    obtain ⟨q, val⟩ := e
    by_cases h0 : i = 0
    · subst h0
      have hs : scanLen ((q, val) :: rest) 0 = 0 := by simp [scanLen]
      rw [hs] at hget
      rw [List.get?_cons_zero] at hget
      injection hget with hget
      rw [hget]
      simp [List.filter_cons]
    · obtain ⟨k, rfl⟩ : ∃ k, i = k + 1 := ⟨i - 1, by omega⟩
      cases val with
      | some w =>
        have hs : scanLen ((q, some w) :: rest) (k + 1) = 1 + scanLen rest k := by
          simp [scanLen]
        rw [hs] at hget
        have hget' : rest.get? (scanLen rest k) = some (p, some v) := by
          rw [Nat.add_comm] at hget
          rwa [List.get?_cons_succ] at hget
        have hlen' : k < (rest.filter (fun q => q.2.isSome)).length := by
          simp only [List.filter_cons, Option.isSome_some, if_pos, List.length_cons] at hlen
          omega
        have hrec := ih k p v hlen' hget'
        simp only [List.filter_cons, Option.isSome_some, if_pos, List.get?_cons_succ]
        exact hrec
      | none =>
        have hs : scanLen ((q, none) :: rest) (k + 1) = 1 + scanLen rest (k + 1) := by
          simp [scanLen]
        rw [hs] at hget
        have hget' : rest.get? (scanLen rest (k + 1)) = some (p, some v) := by
          rw [Nat.add_comm] at hget
          rwa [List.get?_cons_succ] at hget
        have hlen' : k + 1 < (rest.filter (fun q => q.2.isSome)).length := by
          simpa [List.filter_cons] using hlen
        have hrec := ih (k + 1) p v hlen' hget'
        simpa [List.filter_cons] using hrec

/-- C6 (amended): for a visible index `i` below the visible count,
`index_with_tombstones(i)` stops at the entry immediately following the
first `i` visible entries; *provided that entry is itself visible*, it is
exactly the i-th visible element, and `prepare(Remove(i))` then emits
`Removed` of its ptr.  (Without the proviso the returned entry can be a
tombstone — see the counterexample.) -/
theorem c6_remove_targets_nth_visible {T : Type} (rga : RGACrdt T) (i : Nat)
    (p : RGAPtr) (v : T)
    (hcount : i < (rgaVisibles rga.elements).length)
    (hvis : rga.elements.get? (index_with_tombstones rga.elements i) = some (p, some v)) :
    (rgaVisibles rga.elements).get? i = some (p, some v) ∧
    rgaPrepare rga (RGACmd.Remove i) = some (RGAOp.Removed p) := by
  constructor
  · have h1 : index_with_tombstones rga.elements i =
        1 + scanLen (rga.elements.drop 1) i := by
      rw [index_with_tombstones, idxLoop_eq_scanLen]
    rw [h1] at hvis
    have h2 : (rga.elements.drop 1).get? (scanLen (rga.elements.drop 1) i) =
        some (p, some v) := by
      rw [List.get?_drop]
      exact hvis
    exact scanLen_nth _ i p v hcount h2
  · have hdef : rgaPrepare rga (RGACmd.Remove i) =
        (rga.elements.get? (index_with_tombstones rga.elements i)).map
          (fun tgt => RGAOp.Removed tgt.1) := rfl
    rw [hdef, hvis]
    rfl

/-- Witness for C6 at `rgaC6w` (no tombstones), visible index 1. -/
theorem c6_witness :
    (rgaVisibles rgaC6w.elements).get? 1 = some (⟨2, 0⟩, some 20) ∧
    rgaPrepare rgaC6w (RGACmd.Remove 1) = some (RGAOp.Removed ⟨2, 0⟩) :=
  c6_remove_targets_nth_visible rgaC6w 1 ⟨2, 0⟩ 20 (by decide) (by decide)

/-- C6 counterexample: in `rgaC6` a tombstone sits right after the sentinel;
for visible index 0 (which is within the visible count) the loop stops on
the tombstone at physical index 1, and `prepare(Remove(0))` emits `Removed`
of the *tombstone's* ptr `(1, 0)` instead of the 0-th visible element's ptr
`(2, 0)`. -/
theorem c6_counterexample :
    0 < (rgaVisibles rgaC6.elements).length ∧
    index_with_tombstones rgaC6.elements 0 = 1 ∧
    rgaC6.elements.get? 1 = some (⟨1, 0⟩, none) ∧
    rgaPrepare rgaC6 (RGACmd.Remove 0) = some (RGAOp.Removed ⟨1, 0⟩) ∧
    (rgaVisibles rgaC6.elements).get? 0 = some (⟨2, 0⟩, some 88) ∧
    (⟨1, 0⟩ : RGAPtr) ≠ ⟨2, 0⟩ := by
  decide

/-! ### C5: `generate_seq` bounds -/

theorem generate_seq_ne_nil : ∀ low high : List Nat, generate_seq low high ≠ [] := by
  intro low high
  match low, high with
  | [], [] => simp [generate_seq]
  | [], b :: hs =>
    rw [generate_seq]
    split <;> simp
  | a :: ls, [] =>
    rw [generate_seq]
    split <;> simp
  | a :: ls, b :: hs =>
    rw [generate_seq]
    split <;> simp

theorem seqCmp_low_lt_gen :
    ∀ low high : List Nat, (∀ b ∈ low, b < 255) →
      seqCmp low (generate_seq low high) = Ordering.lt := by
  intro low
  induction low with
  | nil =>
    intro high _
    cases hg : generate_seq [] high with
    | nil => exact absurd hg (generate_seq_ne_nil [] high)
    | cons c cs => rfl
  | cons a ls ih =>
    intro high hb
    have ha : a < 255 := hb a (List.mem_cons_self a ls)
    have hls : ∀ x ∈ ls, x < 255 := fun x hx => hb x (List.mem_cons_of_mem a hx)
    have hmod : (a + 1) % 256 = a + 1 := Nat.mod_eq_of_lt (by omega)
    cases high with
    | nil =>
      by_cases h : (a + 1) % 256 < 255
      · have hg : generate_seq (a :: ls) [] = [(a + 1) % 256] := by
          simp [generate_seq, h]
        rw [hg, hmod]
        simp [seqCmp, Nat.lt_succ_self]
      · have hg : generate_seq (a :: ls) [] = a :: generate_seq ls [] := by
          simp [generate_seq, h]
        rw [hg]
        simpa [seqCmp, lt_irrefl] using ih [] hls
    | cons b hs =>
      by_cases h : (a + 1) % 256 < b
      · have hg : generate_seq (a :: ls) (b :: hs) = [(a + 1) % 256] := by
          simp [generate_seq, h]
        rw [hg, hmod]
        simp [seqCmp, Nat.lt_succ_self]
      · have hg : generate_seq (a :: ls) (b :: hs) = a :: generate_seq ls hs := by
          simp [generate_seq, h]
        rw [hg]
        simpa [seqCmp, lt_irrefl] using ih hs hls

theorem seqCmp_gen_lt_high :
    ∀ (high low : List Nat), (∀ b ∈ low, b < 255) →
      seqCmp low high = Ordering.lt →
      (¬ ∃ m, high = low ++ List.replicate m 0) →
      seqCmp (generate_seq low high) high = Ordering.lt := by
  intro high
  induction high with
  | nil =>
    intro low _ hlt _
    exfalso
    cases low with
    | nil => simp [seqCmp] at hlt
    | cons a ls => simp [seqCmp] at hlt
  | cons b hs ih =>
    intro low hb255 hlt hne
    cases low with
    | nil =>
      have hmod : (0 + 1) % 256 = 1 := Nat.mod_eq_of_lt (by omega)
      by_cases h : (0 + 1) % 256 < b
      · have hg : generate_seq [] (b :: hs) = [(0 + 1) % 256] := by
          simp [generate_seq, h]
        rw [hmod] at h
        rw [hg, hmod]
        simp [seqCmp, h]
      · have hg : generate_seq [] (b :: hs) = 0 :: generate_seq [] hs := by
          simp [generate_seq, h]
        rw [hg]
        rw [hmod] at h
        by_cases hb1 : b = 1
        · subst hb1
          simp [seqCmp]
        · have hb0 : b = 0 := by omega
          subst hb0
          simp only [seqCmp, lt_irrefl, if_false]
          apply ih [] (fun x hx => absurd hx (List.not_mem_nil x))
          · cases hs with
            | nil => exact absurd ⟨1, rfl⟩ hne
            | cons c cs => rfl
          · rintro ⟨m, hm⟩
            exact hne ⟨m + 1, by simp [hm, List.replicate_succ]⟩
    | cons a ls =>
      have ha : a < 255 := hb255 a (List.mem_cons_self a ls)
      have hls : ∀ x ∈ ls, x < 255 := fun x hx => hb255 x (List.mem_cons_of_mem a hx)
      have hmod : (a + 1) % 256 = a + 1 := Nat.mod_eq_of_lt (by omega)
      by_cases h : (a + 1) % 256 < b
      · have hg : generate_seq (a :: ls) (b :: hs) = [(a + 1) % 256] := by
          simp [generate_seq, h]
        rw [hmod] at h
        rw [hg, hmod]
        simp [seqCmp, h]
      · have hg : generate_seq (a :: ls) (b :: hs) = a :: generate_seq ls hs := by
          simp [generate_seq, h]
        rw [hg]
        rw [hmod] at h
        by_cases hab : a < b
        · simp [seqCmp, hab]
        · have hba : ¬ b < a := by
            intro hba
            simp [seqCmp, hab, hba] at hlt
          have heq : b = a := by omega
          subst heq
          have hlt' : seqCmp ls hs = Ordering.lt := by
            simpa [seqCmp, lt_irrefl] using hlt
          simp only [seqCmp, lt_irrefl, if_false]
          apply ih ls hls hlt'
          rintro ⟨m, hm⟩
          exact hne ⟨m, by rw [hm]; rfl⟩

/-- C5 (amended): if `low < high` under the `LSeqPtr` comparison, every
byte of `low` is at most 254 (at a 255 byte the source's `u8` successor
`min + 1` wraps to 0 and the result drops below `low`), and `high`'s byte
sequence is not `low`'s sequence extended by zero or more zero bytes (in
that case the result extends `high`'s sequence and compares greater than
`high`), then `generate_seq` produces a sequence strictly between the
bounds, for any owner of the new ptr.  Every byte of a sequence that
`generate_seq` itself emits is at most 254, so the byte condition holds
for every ptr the program creates. -/
theorem c5_generate_seq_between (low high : LSeqPtr) (owner : Nat)
    (hbytes : ∀ b ∈ low.sequence, b < 255)
    (hlt : lseqPtrCmp low high = some Ordering.lt)
    (hne : ¬ ∃ m, high.sequence = low.sequence ++ List.replicate m 0) :
    lseqPtrCmp low ⟨generate_seq low.sequence high.sequence, owner⟩ = some Ordering.lt ∧
    lseqPtrCmp ⟨generate_seq low.sequence high.sequence, owner⟩ high = some Ordering.lt := by
  have hseq : seqCmp low.sequence high.sequence = Ordering.lt := by
    cases hcmp : seqCmp low.sequence high.sequence with
    | lt => rfl
    | eq =>
      exact absurd ⟨0, by simpa using ((seqCmp_eq_iff _ _).mp hcmp).symm⟩ hne
    | gt =>
      rw [lseqPtrCmp, hcmp] at hlt
      cases hlt
  constructor
  · rw [lseqPtrCmp]
    rw [show seqCmp low.sequence (generate_seq low.sequence high.sequence) = Ordering.lt
      from seqCmp_low_lt_gen low.sequence high.sequence hbytes]
  · rw [lseqPtrCmp]
    rw [show seqCmp (generate_seq low.sequence high.sequence) high.sequence = Ordering.lt
      from seqCmp_gen_lt_high high.sequence low.sequence hbytes hseq hne]

/-- Witness for C5: between the ptrs `([1], 0)` and `([2], 1)` the
generated sequence (`[1, 1]`) lies strictly between both bounds. -/
theorem c5_witness :
    lseqPtrCmp ⟨[1], 0⟩ ⟨generate_seq [1] [2], 0⟩ = some Ordering.lt ∧
    lseqPtrCmp ⟨generate_seq [1] [2], 0⟩ ⟨[2], 1⟩ = some Ordering.lt :=
  c5_generate_seq_between ⟨[1], 0⟩ ⟨[2], 1⟩ 0 (by decide) (by decide)
    (by rintro ⟨m, hm⟩; simp [List.replicate_succ] at hm)

/-- C5 counterexample, both failure modes of the original claim.  First:
the ptr bounds `([], 0) < ([0], 1)` (a zero-extension), where
`generate_seq [] [0] = [0, 1]` compares *greater* than the upper bound
`[0]`.  Second: the in-domain byte bounds `([255], 0) < ([255, 1], 1)`,
where the `u8` successor of 255 wraps to 0 and the result `[0]` compares
*less* than the lower bound `[255]`. -/
theorem c5_counterexample :
    (lseqPtrCmp ⟨[], 0⟩ ⟨[0], 1⟩ = some Ordering.lt ∧
      generate_seq [] [0] = [0, 1] ∧
      lseqPtrCmp ⟨[0, 1], 0⟩ ⟨[0], 1⟩ = some Ordering.gt) ∧
    (lseqPtrCmp ⟨[255], 0⟩ ⟨[255, 1], 1⟩ = some Ordering.lt ∧
      generate_seq [255] [255, 1] = [0] ∧
      lseqPtrCmp ⟨[0], 0⟩ ⟨[255], 0⟩ = some Ordering.lt) := by
  refine ⟨⟨by decide, ?_, by decide⟩, ⟨by decide, ?_, by decide⟩⟩
  · simp [generate_seq]
  · simp [generate_seq]
